import Mathlib

/-!
Shallow embedding of `fastapi_websocket_rpc/pubsub/event_rpc_client.py`.

The file embeds the module's single class `EventRpcClient` and the
module-level decorator `apply_retry`.

Modelling conventions:
* A `Topic` is an opaque string identifier (as in the source, where topics
  are string-like keys of a dict and elements of a list).
* Asynchronous callbacks (topic callbacks and connect-hooks) are opaque:
  they are represented by numeric identifiers, and "invoking" one is
  recorded as an event in an observation trace.  The outcome (success or
  raised exception) of each external operation — connection acquisition,
  the remote batched `subscribe` RPC, each connect-hook, `wait_on_reader` —
  is supplied by an `Env` record, since all of these are external
  collaborators from the point of view of this module.
* Python lists are mutable heap objects; `self._topics` holds a reference
  to one.  This matters because the constructor's default argument
  `topics: List[Topic] = []` is evaluated once at function-definition time,
  so every instance constructed without an explicit `topics` argument
  shares one list object.  We model a tiny heap: `World.heap` maps a
  reference (a `Nat`) to the list it currently holds, and reference `0` is
  the module-wide default list created when `__init__` was defined.
* Exceptions are values of `Fault`; a Python coroutine that may raise is a
  function into `Except Fault _`.  `asyncio.gather` (with the default
  `return_exceptions=False`) starts every task and propagates the first
  raised exception; in this deterministic cooperative model the first
  exception is the first faulting hook in registration order.
* `tenacity.retry` with a non-`False` config retries the wrapped function
  until it succeeds.  The loop is given explicit fuel to stay total; only
  the `retry_config is False` branch is needed by the claims below, and
  that branch does not consume fuel.
-/

abbrev Topic := String

/-- Opaque identifier of a registered asynchronous callback. -/
abbrev CallbackId := Nat

/-- Payload of a topic event (the `data` argument of `act_on_topic`). -/
abbrev Payload := String

/-- Exception taxonomy of the source: `ConnectionClosed`,
`WebSocketException`, and any other uncaught `Exception`. -/
inductive Fault
  | connectionClosed
  | webSocketError (code : Nat)
  | other (code : Nat)
deriving DecidableEq, Repr

/-- Heap of Python list objects reachable through `self._topics`.
Reference `defaultTopicsRef = 0` is the list created by evaluating the
default argument `topics: List[Topic] = []` at definition time. -/
structure World where
  heap : Nat → List Topic
  nextRef : Nat

/-- The one default list object shared by all constructions that omit the
`topics` argument. -/
def defaultTopicsRef : Nat := 0

/-- The world at interpreter start: the default list object exists (empty),
fresh references start at 1. -/
def initWorld : World :=
  { heap := fun _ => [], nextRef := 1 }

/-- State of one `EventRpcClient` instance: `_topics` (a reference to a
heap list), `_callbacks` (dict from topic to callback), the
`_on_connect_callbacks` list, and the `_running` flag.  The methods
object, connect kwargs and the retry config do not influence the claims
about this state and are carried separately where needed. -/
structure EventRpcClient where
  topicsRef : Nat
  callbacks : Topic → Option CallbackId
  on_connect_callbacks : List CallbackId
  running : Bool

namespace EventRpcClient

/-- `__init__`: omitting the `topics` argument makes the instance share the
module-wide default list object; passing an explicit list literal
allocates a fresh list object holding it. -/
def init (w : World) (topics : Option (List Topic)) : World × EventRpcClient :=
  match topics with
  | none =>
      (w,
       { topicsRef := defaultTopicsRef
         callbacks := fun _ => none
         on_connect_callbacks := []
         running := false })
  | some l =>
      ({ heap := fun r => if r = w.nextRef then l else w.heap r
         nextRef := w.nextRef + 1 },
       { topicsRef := w.nextRef
         callbacks := fun _ => none
         on_connect_callbacks := []
         running := false })

/-- `subscribe(self, topic, callback)`:
`if not self._running: self._topics.append(topic); self._callbacks[topic] = callback`. -/
def subscribe (w : World) (c : EventRpcClient) (topic : Topic)
    (callback : CallbackId) : World × EventRpcClient :=
  if c.running then (w, c)
  else
    ({ w with heap := fun r =>
        if r = c.topicsRef then w.heap r ++ [topic] else w.heap r },
     { c with callbacks := fun t =>
        if t = topic then some callback else c.callbacks t })

/-- `on_connect(self, callback)`: unconditionally appends to
`self._on_connect_callbacks`. -/
def on_connect (c : EventRpcClient) (callback : CallbackId) : EventRpcClient :=
  { c with on_connect_callbacks := c.on_connect_callbacks ++ [callback] }

end EventRpcClient

/-- Observable actions performed by one invocation of `run`. -/
inductive RunEvent
  | batchSubscribe (topics : List Topic)
  | hookInvoke (hook : CallbackId)
  | waitReader
deriving DecidableEq, Repr

/-- Behaviour of the external collaborators during one invocation of `run`:
the outcome of entering `async with WebSocketRpcClient(...)` (`.ok b` with
`b` recording whether the yielded handle is non-null, `.error e` if
acquisition raises `e`), the outcome of the remote batched
`client.channel.other.subscribe(...)` call, the outcome of each
connect-hook coroutine, and the outcome of `client.wait_on_reader()`. -/
structure Env where
  acquired : Except Fault Bool
  subscribeResult : Except Fault Unit
  hookResult : CallbackId → Except Fault Unit
  readerResult : Except Fault Unit

/-- First raised exception among a list of coroutine outcomes, as
propagated by `asyncio.gather(..., return_exceptions=False)`. -/
def firstError : List (Except Fault Unit) → Except Fault Unit
  | [] => .ok ()
  | .ok () :: rest => firstError rest
  | .error e :: _ => .error e

/-- Result of one invocation of `run`: the instance state on exit, the
trace of observable actions — each tagged with the value of `_running` at
the moment the action is performed — and the overall outcome (normal
return or propagated exception). -/
structure RunResult where
  client : EventRpcClient
  trace : List (RunEvent × Bool)
  result : Except Fault Unit

namespace EventRpcClient

/-- `_on_connection(self, client)`:
`if self._topics: await client.channel.other.subscribe(topics=self._topics)`
then
`if self._on_connect_callbacks: await asyncio.gather(*(cb() for cb in self._on_connect_callbacks))`.
All hooks are started by `gather`; the first raised exception propagates. -/
def on_connection (env : Env) (w : World) (c : EventRpcClient) :
    List (RunEvent × Bool) × Except Fault Unit :=
  let topics := w.heap c.topicsRef
  let gatherStep : List (RunEvent × Bool) × Except Fault Unit :=
    if c.on_connect_callbacks.isEmpty then ([], .ok ())
    else
      (c.on_connect_callbacks.map (fun h => (.hookInvoke h, c.running)),
       firstError (c.on_connect_callbacks.map env.hookResult))
  if topics.isEmpty then gatherStep
  else
    match env.subscribeResult with
    | .error e => ([(.batchSubscribe topics, c.running)], .error e)
    | .ok _ =>
        ((.batchSubscribe topics, c.running) :: gatherStep.1, gatherStep.2)

/-- `run(self, uri, wait_on_reader=True)` (stripped of logging):
enter `async with WebSocketRpcClient(...) as client`; inside a
`try`/`finally`, if `client is not None` set `_running = True`, await
`_on_connection`, and if `wait_on_reader` await `client.wait_on_reader()`;
every `except` clause re-raises, and `finally` resets `_running = False`.
If acquisition itself raises, the body is never entered. -/
def run (env : Env) (w : World) (c : EventRpcClient)
    (wait_on_reader : Bool := true) : RunResult :=
  match env.acquired with
  | .error e => { client := c, trace := [], result := .error e }
  | .ok nonNull =>
      if nonNull then
        let c1 := { c with running := true }
        let h := on_connection env w c1
        match h.2 with
        | .error e =>
            { client := { c1 with running := false }
              trace := h.1
              result := .error e }
        | .ok _ =>
            if wait_on_reader then
              { client := { c1 with running := false }
                trace := h.1 ++ [(.waitReader, c1.running)]
                result := env.readerResult }
            else
              { client := { c1 with running := false }
                trace := h.1
                result := .ok () }
      else
        { client := { c with running := false }, trace := [], result := .ok () }

/-- Observable effect of dispatching an inbound event: the invocation of a
registered callback with the payload it is passed. -/
inductive DispatchEvent
  | invoke (cb : CallbackId) (data : Option Payload)
deriving DecidableEq, Repr

/-- `act_on_topic(self, topic, data=None)`:
`if topic in self._callbacks: await self._callbacks[topic](data=data)`. -/
def act_on_topic (c : EventRpcClient) (topic : Topic)
    (data : Option Payload := none) : List DispatchEvent :=
  match c.callbacks topic with
  | some cb => [.invoke cb data]
  | none => []

end EventRpcClient

/-- One step of the `tenacity` retry loop for a non-`False` config:
re-invoke until success; `fuel` keeps the model total (tenacity's default
config has no stop condition).  `func args i` is the outcome of the
`i`-th invocation of the wrapped function on those arguments; the result
pairs the number of invocations with the final outcome. -/
def retryLoop {α β : Type} (func : α → Nat → Except Fault β) (args : α) :
    Nat → Nat → Nat × Except Fault β
  | fuel, i =>
    match func args i with
    | .ok b => (i + 1, .ok b)
    | .error e =>
        match fuel with
        | 0 => (i + 1, .error e)
        | fuel' + 1 => retryLoop func args fuel' (i + 1)

/-- `apply_retry`'s inner `wrapped_with_retries`:
`if self._retry_config is False: new_func = func else: new_func = retry(**cfg)(func)`;
then `return await new_func(self, *args, **kwargs)`. -/
def apply_retry {α β : Type} (retryConfigIsFalse : Bool) (fuel : Nat)
    (func : α → Nat → Except Fault β) (args : α) : Nat × Except Fault β :=
  if retryConfigIsFalse then (1, func args 0)
  else retryLoop func args fuel 0

/-! ### Derived constructions used by the claims -/

/-- A sequence of `subscribe(topic, callback)` calls, applied in order. -/
def subscribeAll (wc : World × EventRpcClient)
    (calls : List (Topic × CallbackId)) : World × EventRpcClient :=
  calls.foldl (fun p tc => EventRpcClient.subscribe p.1 p.2 tc.1 tc.2) wc

/-- A sequence of `on_connect(callback)` calls, applied in order. -/
def onConnectAll (c : EventRpcClient) (hooks : List CallbackId) :
    EventRpcClient :=
  hooks.foldl EventRpcClient.on_connect c

/-! ### Concrete fixtures (used by witnesses and counterexamples) -/

/-- A freshly constructed idle client whose topic list is the default
list object. -/
def cIdle : EventRpcClient :=
  { topicsRef := 0, callbacks := fun _ => none
    on_connect_callbacks := [], running := false }

/-- A client in the running state. -/
def cRun : EventRpcClient :=
  { topicsRef := 0, callbacks := fun _ => none
    on_connect_callbacks := [], running := true }

/-- A client with a callback registered for topic `"guns"` only. -/
def cWithCb : EventRpcClient :=
  { topicsRef := 0
    callbacks := fun t => if t = "guns" then some 3 else none
    on_connect_callbacks := [], running := false }

/-- A client with two connect-hooks and no topics. -/
def cHooks2 : EventRpcClient :=
  { topicsRef := 0, callbacks := fun _ => none
    on_connect_callbacks := [1, 2], running := false }

/-- A world in which the default list object holds `["guns"]`. -/
def wEx : World :=
  { heap := fun r => if r = 0 then ["guns"] else [], nextRef := 1 }

/-- Fully successful environment. -/
def envOk : Env :=
  { acquired := .ok true, subscribeResult := .ok ()
    hookResult := fun _ => .ok (), readerResult := .ok () }

/-- Connection acquisition raises. -/
def envAcqFail : Env :=
  { acquired := .error (.other 9), subscribeResult := .ok ()
    hookResult := fun _ => .ok (), readerResult := .ok () }

/-- Acquisition succeeds but yields a null handle. -/
def envNull : Env :=
  { acquired := .ok false, subscribeResult := .ok ()
    hookResult := fun _ => .ok (), readerResult := .ok () }

/-- Successful connection; hook `1` raises `e1`, hook `2` raises `e2`. -/
def envHooks (e1 e2 : Fault) : Env :=
  { acquired := .ok true, subscribeResult := .ok ()
    hookResult := fun h => if h = 1 then .error e1
      else if h = 2 then .error e2 else .ok ()
    readerResult := .ok () }

/-! ### Helper lemmas -/

open EventRpcClient

lemma subscribe_not_running (w : World) (c : EventRpcClient) (t : Topic)
    (cb : CallbackId) (h : c.running = false) :
    (subscribe w c t cb).2.running = false ∧
    (subscribe w c t cb).2.topicsRef = c.topicsRef ∧
    (subscribe w c t cb).2.on_connect_callbacks = c.on_connect_callbacks ∧
    (subscribe w c t cb).1.heap c.topicsRef = w.heap c.topicsRef ++ [t] := by
  simp [subscribe, h]

lemma subscribeAll_spec (calls : List (Topic × CallbackId)) :
    ∀ (w : World) (c : EventRpcClient), c.running = false →
    (subscribeAll (w, c) calls).2.running = false ∧
    (subscribeAll (w, c) calls).2.topicsRef = c.topicsRef ∧
    (subscribeAll (w, c) calls).2.on_connect_callbacks
      = c.on_connect_callbacks ∧
    (subscribeAll (w, c) calls).1.heap c.topicsRef
      = w.heap c.topicsRef ++ calls.map Prod.fst := by
  induction calls with
  | nil => intro w c h; simp [subscribeAll, h]
  | cons tc rest ih =>
      intro w c h
      obtain ⟨h1, h2, h3, h4⟩ := subscribe_not_running w c tc.1 tc.2 h
      have step : subscribeAll (w, c) (tc :: rest)
          = subscribeAll (subscribe w c tc.1 tc.2) rest := by
        simp [subscribeAll, List.foldl_cons]
      obtain ⟨i1, i2, i3, i4⟩ :=
        ih (subscribe w c tc.1 tc.2).1 (subscribe w c tc.1 tc.2).2 h1
      refine ⟨by rw [step]; exact i1, by rw [step, i2, h2],
        by rw [step, i3, h3], ?_⟩
      rw [step, ← h2, i4, h2, h4, List.append_assoc]
      simp

lemma onConnectAll_spec (hooks : List CallbackId) :
    ∀ (c : EventRpcClient),
    (onConnectAll c hooks).topicsRef = c.topicsRef ∧
    (onConnectAll c hooks).running = c.running ∧
    (onConnectAll c hooks).callbacks = c.callbacks ∧
    (onConnectAll c hooks).on_connect_callbacks
      = c.on_connect_callbacks ++ hooks := by
  induction hooks with
  | nil => intro c; simp [onConnectAll]
  | cons hk rest ih =>
      intro c
      obtain ⟨i1, i2, i3, i4⟩ := ih (on_connect c hk)
      have step : onConnectAll c (hk :: rest)
          = onConnectAll (on_connect c hk) rest := by
        simp [onConnectAll, List.foldl_cons]
      exact ⟨by rw [step]; exact i1, by rw [step]; exact i2,
        by rw [step]; exact i3, by rw [step, i4]; simp [on_connect]⟩

lemma on_connection_flags (env : Env) (w : World) (c : EventRpcClient) :
    ∀ p ∈ (on_connection env w c).1, p.2 = c.running := by
  intro p hp
  unfold on_connection at hp
  dsimp at hp
  by_cases ht : (w.heap c.topicsRef).isEmpty
  · rw [if_pos ht] at hp
    by_cases hh : c.on_connect_callbacks.isEmpty
    · simp [hh] at hp
    · rw [if_neg hh] at hp
      obtain ⟨hk, _, hEq⟩ := List.mem_map.mp hp
      rw [← hEq]
  · rw [if_neg ht] at hp
    cases hs : env.subscribeResult with
    | error e => rw [hs] at hp; simp at hp; rw [hp]
    | ok u =>
        rw [hs] at hp
        rcases List.mem_cons.mp hp with h1 | h1
        · rw [h1]
        · by_cases hh : c.on_connect_callbacks.isEmpty
          · simp [hh] at h1
          · rw [if_neg hh] at h1
            obtain ⟨hk, _, hEq⟩ := List.mem_map.mp h1
            rw [← hEq]

lemma on_connection_shape (env : Env) (w : World) (c : EventRpcClient)
    (h : (w.heap c.topicsRef).isEmpty = false) :
    ∃ rest,
      (on_connection env w c).1
        = (RunEvent.batchSubscribe (w.heap c.topicsRef), c.running) :: rest ∧
      ∀ p ∈ rest, ∃ hk, p.1 = RunEvent.hookInvoke hk := by
  unfold on_connection
  dsimp
  rw [if_neg (by simp [h])]
  cases hs : env.subscribeResult with
  | error e => exact ⟨[], rfl, by simp⟩
  | ok u =>
      by_cases hh : c.on_connect_callbacks.isEmpty
      · exact ⟨[], by simp [hh], by simp⟩
      · refine ⟨c.on_connect_callbacks.map
          (fun hk => (RunEvent.hookInvoke hk, c.running)), by simp [hh], ?_⟩
        intro p hp
        obtain ⟨hk, _, hEq⟩ := List.mem_map.mp hp
        exact ⟨hk, by rw [← hEq]⟩

lemma run_trace_shape (env : Env) (w : World) (c : EventRpcClient)
    (wor : Bool) (h : env.acquired = .ok true) :
    (run env w c wor).trace = (on_connection env w { c with running := true }).1 ∨
    (run env w c wor).trace
      = (on_connection env w { c with running := true }).1
          ++ [(RunEvent.waitReader, true)] := by
  unfold run
  rw [h]
  dsimp
  cases h2 : (on_connection env w { c with running := true }).2 with
  | error e => left; rfl
  | ok u => cases wor with
      | false => left; rfl
      | true => right; rfl

/-! ### Claims -/

/-- C2: for every topic and callback, calling `subscribe(topic, callback)`
while the `_running` flag is true is a no-op: the world (hence the topic
sequence) and the client (hence the callback map) are exactly the same
after the call as before it. -/
theorem claim_C2 (w : World) (c : EventRpcClient) (t : Topic)
    (cb : CallbackId) (h : c.running = true) :
    subscribe w c t cb = (w, c) := by
  simp [subscribe, h]

/-- Witness for C2 at a concrete running client. -/
theorem claim_C2_witness :
    cRun.running = true ∧ subscribe initWorld cRun "guns" 7 = (initWorld, cRun) :=
  ⟨rfl, claim_C2 initWorld cRun "guns" 7 rfl⟩

/-- C4: whenever the `async with` body of `run` is entered (acquisition
returned, with a null or non-null handle), the `_running` flag is false
when the invocation completes, on every exit path — normal return and
every propagated fault. -/
theorem claim_C4 (env : Env) (w : World) (c : EventRpcClient) (wor : Bool)
    (b : Bool) (h : env.acquired = .ok b) :
    ((run env w c wor).client).running = false := by
  unfold run
  rw [h]
  cases b with
  | false => rfl
  | true =>
      dsimp
      cases (on_connection env w { c with running := true }).2 with
      | error e => rfl
      | ok u => cases wor <;> rfl

/-- Witness for C4: a run that faults on `wait_on_reader` still ends with
the flag false. -/
theorem claim_C4_witness :
    ((run { envOk with readerResult := .error .connectionClosed }
        wEx cIdle true).client).running = false :=
  claim_C4 { envOk with readerResult := .error .connectionClosed }
    wEx cIdle true true rfl

/-- C5: with the retry configuration disabled (`retry_config is False`),
the wrapper invokes the underlying operation exactly once with unchanged
arguments and returns its outcome unchanged — in particular a
connection-acquisition fault raised by `run` is propagated to the caller
with no retry attempt. -/
theorem claim_C5 :
    (∀ (α β : Type) (fuel : Nat) (func : α → Nat → Except Fault β)
        (args : α), apply_retry true fuel func args = (1, func args 0)) ∧
    (∀ (fuel : Nat) (env : Env) (w : World) (c : EventRpcClient)
        (wor : Bool) (e : Fault), env.acquired = .error e →
        apply_retry true fuel
          (fun (p : (World × EventRpcClient) × Bool) _ =>
            (run env p.1.1 p.1.2 p.2).result) ((w, c), wor)
          = (1, .error e)) := by
  constructor
  · intro α β fuel func args
    simp [apply_retry]
  · intro fuel env w c wor e h
    simp [apply_retry, run, h]

/-- Witness for C5: a single non-retried invocation, and an acquisition
fault propagated unchanged. -/
theorem claim_C5_witness :
    apply_retry true 5
        (fun (_ : Nat) (_ : Nat) =>
          (.error .connectionClosed : Except Fault Nat)) 3
      = (1, .error .connectionClosed) ∧
    apply_retry true 5
        (fun (p : (World × EventRpcClient) × Bool) _ =>
          (run envAcqFail p.1.1 p.1.2 p.2).result) ((initWorld, cIdle), true)
      = (1, .error (.other 9)) :=
  ⟨claim_C5.1 Nat Nat 5 _ 3,
   claim_C5.2 5 envAcqFail initWorld cIdle true (.other 9) rfl⟩

/-- C7: dispatching an inbound event through `act_on_topic` for a topic
with a registered callback invokes exactly that callback with exactly the
given payload exactly once; for a topic with no registered callback it
does nothing and does not fault. -/
theorem claim_C7 (c : EventRpcClient) (t : Topic) (d : Option Payload)
    (cb : CallbackId) :
    (c.callbacks t = some cb → act_on_topic c t d = [.invoke cb d]) ∧
    (c.callbacks t = none → act_on_topic c t d = []) := by
  constructor <;> intro h <;> simp [act_on_topic, h]

/-- Witness for C7: a registered topic dispatches to its callback, an
unregistered one dispatches nothing. -/
theorem claim_C7_witness :
    act_on_topic cWithCb "guns" (some "payload")
      = [.invoke 3 (some "payload")] ∧
    act_on_topic cWithCb "germs" (some "payload") = [] :=
  ⟨(claim_C7 cWithCb "guns" (some "payload") 3).1 (by simp [cWithCb]),
   (claim_C7 cWithCb "germs" (some "payload") 3).2 (by simp [cWithCb])⟩

/-- C8: last-write-wins — before start, `subscribe(t, c1)` followed by
`subscribe(t, c2)` makes a later dispatch for `t` invoke `c2` and never
`c1`, exactly as `subscribe(t, c2)` alone would. -/
theorem claim_C8 (w : World) (c : EventRpcClient) (t : Topic)
    (c1 c2 : CallbackId) (d : Option Payload) (h : c.running = false) :
    act_on_topic (subscribe (subscribe w c t c1).1
        (subscribe w c t c1).2 t c2).2 t d
      = act_on_topic (subscribe w c t c2).2 t d ∧
    act_on_topic (subscribe (subscribe w c t c1).1
        (subscribe w c t c1).2 t c2).2 t d
      = [.invoke c2 d] := by
  simp [subscribe, h, act_on_topic]

/-- Witness for C8 at a concrete client and topic. -/
theorem claim_C8_witness :
    act_on_topic (subscribe (subscribe initWorld cIdle "guns" 1).1
        (subscribe initWorld cIdle "guns" 1).2 "guns" 2).2 "guns" (some "x")
      = act_on_topic (subscribe initWorld cIdle "guns" 2).2 "guns" (some "x") ∧
    act_on_topic (subscribe (subscribe initWorld cIdle "guns" 1).1
        (subscribe initWorld cIdle "guns" 1).2 "guns" 2).2 "guns" (some "x")
      = [.invoke 2 (some "x")] :=
  claim_C8 initWorld cIdle "guns" 1 2 (some "x") rfl

/-- C10: if acquisition yields a null connection handle, a single
invocation of `run` completes normally: no fault, no batched subscribe
call, no connect-hook invocation (empty trace), and the client is back in
its idle state (`_running` false) when `run` returns. -/
theorem claim_C10 (env : Env) (w : World) (c : EventRpcClient) (wor : Bool)
    (h : env.acquired = .ok false) (hr : c.running = false) :
    (run env w c wor).trace = [] ∧
    (run env w c wor).result = .ok () ∧
    (run env w c wor).client = c := by
  refine ⟨by simp [run, h], by simp [run, h], ?_⟩
  have : (run env w c wor).client = { c with running := false } := by
    simp [run, h]
  rw [this, ← hr]

/-- Witness for C10 at a concrete idle client and null-handle environment. -/
theorem claim_C10_witness :
    (run envNull initWorld cIdle true).trace = [] ∧
    (run envNull initWorld cIdle true).result = .ok () ∧
    (run envNull initWorld cIdle true).client = cIdle :=
  claim_C10 envNull initWorld cIdle true rfl rfl

lemma subscribeAll_spec2 (calls : List (Topic × CallbackId))
    (wc : World × EventRpcClient) (h : wc.2.running = false) :
    (subscribeAll wc calls).2.running = false ∧
    (subscribeAll wc calls).2.topicsRef = wc.2.topicsRef ∧
    (subscribeAll wc calls).2.on_connect_callbacks
      = wc.2.on_connect_callbacks ∧
    (subscribeAll wc calls).1.heap wc.2.topicsRef
      = wc.1.heap wc.2.topicsRef ++ calls.map Prod.fst := by
  have := subscribeAll_spec calls wc.1 wc.2 h
  simpa using this

/-- C1: starting from a freshly constructed client, for any pre-start
sequence of `subscribe` calls (non-empty) and any pre-start sequence of
`on_connect` registrations, every invocation of `run` whose acquisition
succeeds with a non-null handle issues exactly one batched remote
subscribe call, its argument is the entire current topic sequence (the
topics of all `subscribe` calls, in order), and that call comes before
every connect-hook invocation (it heads the trace, and no other batched
call occurs). -/
theorem claim_C1 (calls : List (Topic × CallbackId)) (hooks : List CallbackId)
    (env : Env) (wor : Bool) (hacq : env.acquired = .ok true)
    (hne : calls ≠ []) :
    (subscribeAll (EventRpcClient.init initWorld (some [])) calls).1.heap
        (onConnectAll
          (subscribeAll (EventRpcClient.init initWorld (some [])) calls).2
          hooks).topicsRef
      = calls.map Prod.fst ∧
    ∃ rest,
      (run env
          (subscribeAll (EventRpcClient.init initWorld (some [])) calls).1
          (onConnectAll
            (subscribeAll (EventRpcClient.init initWorld (some [])) calls).2
            hooks) wor).trace
        = (RunEvent.batchSubscribe (calls.map Prod.fst), true) :: rest ∧
      ∀ p ∈ rest, ∀ ts, p.1 ≠ RunEvent.batchSubscribe ts := by
  obtain ⟨hr, htref, -, hheap⟩ :=
    subscribeAll_spec2 calls (EventRpcClient.init initWorld (some [])) rfl
  obtain ⟨o1, o2, -, -⟩ := onConnectAll_spec hooks
    (subscribeAll (EventRpcClient.init initWorld (some [])) calls).2
  set W := (subscribeAll (EventRpcClient.init initWorld (some [])) calls).1
  set C2 := onConnectAll
    (subscribeAll (EventRpcClient.init initWorld (some [])) calls).2 hooks
  have hheap2 : W.heap C2.topicsRef = calls.map Prod.fst := by
    rw [o1, htref, hheap]
    show ([] : List Topic) ++ calls.map Prod.fst = calls.map Prod.fst
    exact List.nil_append _
  have hni : (W.heap ({ C2 with running := true }
      : EventRpcClient).topicsRef).isEmpty = false := by
    rw [show ({ C2 with running := true } : EventRpcClient).topicsRef
      = C2.topicsRef from rfl, hheap2]
    cases calls with
    | nil => exact absurd rfl hne
    | cons a l => rfl
  refine ⟨hheap2, ?_⟩
  obtain ⟨rest0, hsh, hrest0⟩ :=
    on_connection_shape env W { C2 with running := true } hni
  rw [show ({ C2 with running := true } : EventRpcClient).topicsRef
    = C2.topicsRef from rfl, hheap2] at hsh
  rcases run_trace_shape env W C2 wor hacq with htr | htr
  · refine ⟨rest0, ?_, ?_⟩
    · rw [htr, hsh]
    · intro p hp ts
      obtain ⟨hk, hpk⟩ := hrest0 p hp
      rw [hpk]
      intro hcon
      cases hcon
  · refine ⟨rest0 ++ [(RunEvent.waitReader, true)], ?_, ?_⟩
    · rw [htr, hsh]
      rfl
    · intro p hp ts
      rcases List.mem_append.mp hp with h1 | h1
      · obtain ⟨hk, hpk⟩ := hrest0 p h1
        rw [hpk]
        intro hcon
        cases hcon
      · have : p = (RunEvent.waitReader, true) := by simpa using h1
        rw [this]
        intro hcon
        cases hcon

/-- Witness for C1: two subscriptions and one hook; the batched call heads
the trace with both topics. -/
theorem claim_C1_witness :
    (subscribeAll (EventRpcClient.init initWorld (some []))
        [("guns", 1), ("germs", 2)]).1.heap
      (onConnectAll
        (subscribeAll (EventRpcClient.init initWorld (some []))
          [("guns", 1), ("germs", 2)]).2 [4]).topicsRef
      = ["guns", "germs"] ∧
    ∃ rest,
      (run envOk
          (subscribeAll (EventRpcClient.init initWorld (some []))
            [("guns", 1), ("germs", 2)]).1
          (onConnectAll
            (subscribeAll (EventRpcClient.init initWorld (some []))
              [("guns", 1), ("germs", 2)]).2 [4]) true).trace
        = (RunEvent.batchSubscribe ["guns", "germs"], true) :: rest ∧
      ∀ p ∈ rest, ∀ ts, p.1 ≠ RunEvent.batchSubscribe ts :=
  claim_C1 [("guns", 1), ("germs", 2)] [4] envOk true rfl (by simp)

/-- Steps of the post-connect handshake: the batched subscribe call and
the connect-hook invocations (`waitReader` is the later connected
wait-state). -/
def isHandshakeStep : RunEvent → Bool
  | .batchSubscribe _ => true
  | .hookInvoke _ => true
  | .waitReader => false

/-- Claim C3 as stated: starting from an idle client, the `_running` flag
is never true while the batched subscribe call or a connect-hook is
executing. -/
def claimC3Statement : Prop :=
  ∀ (env : Env) (w : World) (c : EventRpcClient) (wor : Bool),
    c.running = false →
    ∀ p ∈ (run env w c wor).trace, isHandshakeStep p.1 = true → p.2 = false

/-- C3 counterexample: `run` sets `_running = True` before awaiting
`_on_connection`, so on a successful connection the batched subscribe call
executes with the flag already true. -/
theorem claim_C3_counterexample : ¬ claimC3Statement := by
  intro h
  have hmem : ((RunEvent.batchSubscribe ["guns"], true) : RunEvent × Bool)
      ∈ (run envOk wEx cIdle true).trace := by
    show ((RunEvent.batchSubscribe ["guns"], true) : RunEvent × Bool)
      ∈ [(RunEvent.batchSubscribe ["guns"], true), (RunEvent.waitReader, true)]
    exact List.mem_cons_self _ _
  have hc := h envOk wEx cIdle true rfl
    (RunEvent.batchSubscribe ["guns"], true) hmem rfl
  exact Bool.noConfusion hc

/-- C3 amended: the `_running` flag is set to true immediately after a
successful non-null acquisition, before the handshake — every observable
step of `run` (batched subscribe, each connect-hook, the reader wait)
executes with the flag true — and the flag is false again when the
invocation completes (for an idle client, on every path including
acquisition faults). -/
theorem claim_C3_amended (env : Env) (w : World) (c : EventRpcClient)
    (wor : Bool) :
    (∀ p ∈ (run env w c wor).trace, p.2 = true) ∧
    (c.running = false → ((run env w c wor).client).running = false) := by
  constructor
  · intro p hp
    cases hacq : env.acquired with
    | error e =>
        rw [show (run env w c wor).trace = [] from by simp [run, hacq]] at hp
        cases hp
    | ok b =>
        cases b with
        | false =>
            rw [show (run env w c wor).trace = [] from by
              simp [run, hacq]] at hp
            cases hp
        | true =>
            rcases run_trace_shape env w c wor hacq with htr | htr
            · rw [htr] at hp
              exact on_connection_flags env w { c with running := true } p hp
            · rw [htr] at hp
              rcases List.mem_append.mp hp with h1 | h1
              · exact on_connection_flags env w { c with running := true } p h1
              · have hpw : p = (RunEvent.waitReader, true) := by simpa using h1
                rw [hpw]
  · intro hr
    cases hacq : env.acquired with
    | error e =>
        have hcl : (run env w c wor).client = c := by simp [run, hacq]
        rw [hcl]
        exact hr
    | ok b =>
        unfold run
        rw [hacq]
        cases b with
        | false => rfl
        | true =>
            dsimp
            cases (on_connection env w { c with running := true }).2 with
            | error e => rfl
            | ok u => cases wor <;> rfl

/-- Witness for the amended C3: on a successful connection the batched
subscribe step carries flag true, and the flag is false on return. -/
theorem claim_C3_amended_witness :
    ((RunEvent.batchSubscribe ["guns"], true) : RunEvent × Bool).2 = true ∧
    ((run envOk wEx cIdle true).client).running = false :=
  ⟨(claim_C3_amended envOk wEx cIdle true).1
      (RunEvent.batchSubscribe ["guns"], true)
      (by show ((RunEvent.batchSubscribe ["guns"], true) : RunEvent × Bool)
            ∈ [(RunEvent.batchSubscribe ["guns"], true),
               (RunEvent.waitReader, true)]
          exact List.mem_cons_self _ _),
   (claim_C3_amended envOk wEx cIdle true).2 rfl⟩

lemma on_connection_hooks (env : Env) (w : World) (c : EventRpcClient)
    (hs : (w.heap c.topicsRef).isEmpty = true ∨ env.subscribeResult = .ok ()) :
    (∀ hk ∈ c.on_connect_callbacks,
       (RunEvent.hookInvoke hk, c.running) ∈ (on_connection env w c).1) ∧
    (∀ e, firstError (c.on_connect_callbacks.map env.hookResult) = .error e →
       (on_connection env w c).2 = .error e) := by
  unfold on_connection
  dsimp
  by_cases ht : (w.heap c.topicsRef).isEmpty
  · rw [if_pos ht]
    by_cases hh : c.on_connect_callbacks.isEmpty
    · rw [if_pos hh]
      rw [List.isEmpty_iff] at hh
      constructor
      · intro hk hmem
        rw [hh] at hmem
        cases hmem
      · intro e he
        rw [hh] at he
        cases he
    · rw [if_neg hh]
      exact ⟨fun hk hmem => List.mem_map.mpr ⟨hk, hmem, rfl⟩,
             fun e he => he⟩
  · rw [if_neg ht]
    have hsok : env.subscribeResult = .ok () := by
      rcases hs with h1 | h1
      · exact absurd h1 ht
      · exact h1
    rw [hsok]
    dsimp
    by_cases hh : c.on_connect_callbacks.isEmpty
    · rw [if_pos hh]
      rw [List.isEmpty_iff] at hh
      constructor
      · intro hk hmem
        rw [hh] at hmem
        cases hmem
      · intro e he
        rw [hh] at he
        cases he
    · rw [if_neg hh]
      exact ⟨fun hk hmem =>
          List.mem_cons_of_mem _ (List.mem_map.mpr ⟨hk, hmem, rfl⟩),
        fun e he => he⟩

/-- Claim C6's aggregation part as stated: when two registered hooks both
fault on a successful handshake, the propagated fault aggregates the
individual faults — so it determines each of them, in particular the
second hook's fault. -/
def claimC6Aggregates : Prop :=
  ∀ (e1 e2 e2' : Fault),
    (run (envHooks e1 e2) initWorld cHooks2 true).result
      = (run (envHooks e1 e2') initWorld cHooks2 true).result → e2 = e2'

/-- C6 counterexample: `asyncio.gather` with its default
`return_exceptions=False` propagates a single exception; with hooks `[1, 2]`
both faulting, the propagated fault is hook 1's fault alone, unchanged
when hook 2's fault changes — nothing is aggregated. -/
theorem claim_C6_counterexample : ¬ claimC6Aggregates := by
  intro h
  have heq : (run (envHooks (.other 1) (.other 2))
        initWorld cHooks2 true).result
      = (run (envHooks (.other 1) (.other 3))
          initWorld cHooks2 true).result := rfl
  have h23 := h (.other 1) (.other 2) (.other 3) heq
  exact absurd h23 (by decide)

/-- C6 amended: on every successful handshake attempt that reaches the
hook stage (non-null acquisition, and an empty topic sequence or a
successful batched subscribe call), every registered connect-hook is
invoked — on every such (re)connection — and if any hook faults, a single
fault (the first faulting hook's, not an aggregate) propagates out of
`run`, so the handshake fails like a connection failure. -/
theorem claim_C6_amended (env : Env) (w : World) (c : EventRpcClient)
    (wor : Bool) (hacq : env.acquired = .ok true)
    (hs : (w.heap c.topicsRef).isEmpty = true ∨ env.subscribeResult = .ok ()) :
    (∀ hk ∈ c.on_connect_callbacks,
       (RunEvent.hookInvoke hk, true) ∈ (run env w c wor).trace) ∧
    (∀ e, firstError (c.on_connect_callbacks.map env.hookResult) = .error e →
       (run env w c wor).result = .error e) := by
  have hoc := on_connection_hooks env w { c with running := true } hs
  constructor
  · intro hk hmem
    have hm2 : ((RunEvent.hookInvoke hk, true) : RunEvent × Bool)
        ∈ (on_connection env w { c with running := true }).1 :=
      hoc.1 hk hmem
    rcases run_trace_shape env w c wor hacq with htr | htr
    · rw [htr]; exact hm2
    · rw [htr]; exact List.mem_append_left _ hm2
  · intro e he
    have h2 : (on_connection env w { c with running := true }).2 = .error e :=
      hoc.2 e he
    unfold run
    rw [hacq]
    dsimp
    rw [h2]

/-- Witness for the amended C6: both hooks of `cHooks2` are invoked and
the first hook's fault is the one propagated. -/
theorem claim_C6_amended_witness :
    ((RunEvent.hookInvoke 1, true) : RunEvent × Bool)
      ∈ (run (envHooks (.other 1) (.other 2)) initWorld cHooks2 true).trace ∧
    (run (envHooks (.other 1) (.other 2)) initWorld cHooks2 true).result
      = .error (.other 1) :=
  ⟨(claim_C6_amended (envHooks (.other 1) (.other 2)) initWorld cHooks2 true
      rfl (Or.inl rfl)).1 1 (by decide),
   (claim_C6_amended (envHooks (.other 1) (.other 2)) initWorld cHooks2 true
      rfl (Or.inl rfl)).2 (.other 1) rfl⟩

/-- C9: two clients constructed without an explicit `topics` argument
share the mutable default list object (`topics: List[Topic] = []` is
evaluated once), so they have the same topics reference; after
`subscribe(t, cb)` on the first client (before start), `t` is in the
second client's topic sequence, and a successful `run` of the second
client issues a batched subscribe call that includes `t`. -/
theorem claim_C9 (t : Topic) (cb : CallbackId) (env : Env) (wor : Bool)
    (hacq : env.acquired = .ok true) :
    (EventRpcClient.init initWorld none).2.topicsRef
      = (EventRpcClient.init (EventRpcClient.init initWorld none).1
          none).2.topicsRef ∧
    t ∈ (subscribe (EventRpcClient.init (EventRpcClient.init initWorld none).1
            none).1
          (EventRpcClient.init initWorld none).2 t cb).1.heap
        (EventRpcClient.init (EventRpcClient.init initWorld none).1
          none).2.topicsRef ∧
    ∃ ts rest,
      (run env
          (subscribe
            (EventRpcClient.init (EventRpcClient.init initWorld none).1
              none).1
            (EventRpcClient.init initWorld none).2 t cb).1
          (EventRpcClient.init (EventRpcClient.init initWorld none).1
            none).2 wor).trace
        = (RunEvent.batchSubscribe ts, true) :: rest ∧
      t ∈ ts := by
  refine ⟨rfl, ?_, ?_⟩
  · show t ∈ ([] : List Topic) ++ [t]
    simp
  · have hni : (((subscribe
        (EventRpcClient.init (EventRpcClient.init initWorld none).1 none).1
        (EventRpcClient.init initWorld none).2 t cb).1.heap
          (({ (EventRpcClient.init (EventRpcClient.init initWorld none).1
              none).2 with running := true }
            : EventRpcClient).topicsRef)).isEmpty) = false := by
      show (([] : List Topic) ++ [t]).isEmpty = false
      rfl
    obtain ⟨rest0, hsh, -⟩ := on_connection_shape env
      (subscribe
        (EventRpcClient.init (EventRpcClient.init initWorld none).1 none).1
        (EventRpcClient.init initWorld none).2 t cb).1
      { (EventRpcClient.init (EventRpcClient.init initWorld none).1
          none).2 with running := true } hni
    rcases run_trace_shape env
      (subscribe
        (EventRpcClient.init (EventRpcClient.init initWorld none).1 none).1
        (EventRpcClient.init initWorld none).2 t cb).1
      (EventRpcClient.init (EventRpcClient.init initWorld none).1 none).2
      wor hacq with htr | htr
    · refine ⟨[t], rest0, ?_, ?_⟩
      · rw [htr]
        exact hsh
      · simp
    · refine ⟨[t], rest0 ++ [(RunEvent.waitReader, true)], ?_, ?_⟩
      · rw [htr, hsh]
        rfl
      · simp

/-- Witness for C9 at a concrete topic and environment. -/
theorem claim_C9_witness :
    (EventRpcClient.init initWorld none).2.topicsRef
      = (EventRpcClient.init (EventRpcClient.init initWorld none).1
          none).2.topicsRef ∧
    "guns" ∈ (subscribe
          (EventRpcClient.init (EventRpcClient.init initWorld none).1
            none).1
          (EventRpcClient.init initWorld none).2 "guns" 3).1.heap
        (EventRpcClient.init (EventRpcClient.init initWorld none).1
          none).2.topicsRef ∧
    ∃ ts rest,
      (run envOk
          (subscribe
            (EventRpcClient.init (EventRpcClient.init initWorld none).1
              none).1
            (EventRpcClient.init initWorld none).2 "guns" 3).1
          (EventRpcClient.init (EventRpcClient.init initWorld none).1
            none).2 true).trace
        = (RunEvent.batchSubscribe ts, true) :: rest ∧
      "guns" ∈ ts :=
  claim_C9 "guns" 3 envOk true rfl
